import Mathlib

/-!
Shallow embedding of the GTFS analytics backend
(`src/backend/src/gtfs_analytics/app`): the time codec (`utils/time.py`),
the headway/KPI engine (`services/headways.py`), the ingestion pipeline and
day-type derivation (`services/ingest.py`), the dataset registry
(`services/catalog.py`) and the accessibility proxy
(`services/accessibility.py`).

Python `str` values are embedded as Lean `String` (comparisons are done on
the underlying code-point lists, matching Python's lexicographic string
comparison), Python `int` as `Int` (`//` and `%` as `Int.fdiv`/`Int.fmod`,
which are floor division and floor modulus, as in Python), and Python
`float` arithmetic as exact rational arithmetic over `ℚ` (the spec demands
numerically exact interpolated percentiles).  Fallible Python code (raising
exceptions) is embedded with `Option`.  Python's stable `sorted` is embedded
as `List.insertionSort` with a boolean key comparison: both are stable
sorts, hence extensionally equal on every input.
-/

/-! ### Decimal strings

Embeds Python's `int(...)` string parsing (optional sign followed by digits;
Python's additional tolerance of surrounding whitespace and underscores is
not modelled, no caller in this repository feeds such strings) and Python's
`f"{n:02d}"` decimal formatting. -/

/-- The decimal digit character for `d` (`0 ≤ d ≤ 9`). -/
def digitChar10 (d : Nat) : Char := Char.ofNat (48 + d)

/-- Value of a non-empty all-digit character list, `none` otherwise. -/
def digitsVal? (cs : List Char) : Option Nat :=
  match cs with
  | [] => none
  | _ => if cs.all Char.isDigit then some (cs.foldl (fun a c => 10 * a + (c.toNat - 48)) 0)
         else none

/-- Embedding of Python `int(s)` on strings: optional `+`/`-` sign followed
by decimal digits; anything else raises `ValueError`, embedded as `none`. -/
def pyIntOfChars? (cs : List Char) : Option Int :=
  match cs with
  | [] => none
  | c :: rest =>
    if c = '-' then (digitsVal? rest).map (fun n => -(n : Int))
    else if c = '+' then (digitsVal? rest).map (fun n => (n : Int))
    else (digitsVal? (c :: rest)).map (fun n => (n : Int))

def pyInt? (s : String) : Option Int := pyIntOfChars? s.data

/-- Decimal digits of `n`, most significant first; structural on `fuel` so
that the kernel can evaluate it (`fuel ≥ n` suffices, see
`natDecChars`). -/
def natDecAux (fuel : Nat) (n : Nat) : List Char :=
  match fuel with
  | 0 => []
  | fuel + 1 =>
    if n < 10 then [digitChar10 n]
    else natDecAux fuel (n / 10) ++ [digitChar10 (n % 10)]

/-- Decimal rendering of a natural number (the digits of `repr(n)`). -/
def natDecChars (n : Nat) : List Char := natDecAux (n + 1) n

/-- Decimal rendering of an integer (the digits of `repr(n)`). -/
def intDecChars (n : Int) : List Char :=
  if n < 0 then '-' :: natDecChars (-n).toNat else natDecChars n.toNat

/-- Embedding of Python `f"{n:02d}"`: zero-pad the decimal rendering to at
least two characters. -/
def pad2Int (n : Int) : List Char :=
  if 0 ≤ n ∧ n < 10 then '0' :: intDecChars n else intDecChars n

/-- `f"{n:02d}"` for a natural number. -/
def pad2Nat (n : Nat) : List Char :=
  if n < 10 then '0' :: natDecChars n else natDecChars n

/-! ### String splitting and comparison -/

/-- Embedding of Python `s.split(sep)` for a one-character separator: split
the code-point list at every occurrence of `sep`, keeping empty pieces. -/
def splitCh (sep : Char) : List Char → List (List Char)
  | [] => [[]]
  | c :: cs =>
    match splitCh sep cs with
    | [] => [[]]
    | g :: gs => if c = sep then [] :: g :: gs else (c :: g) :: gs

/-- Strict lexicographic comparison of code-point lists: the order Python
uses to compare strings. -/
def charListLt : List Char → List Char → Bool
  | [], [] => false
  | [], _ :: _ => true
  | _ :: _, [] => false
  | a :: as, b :: bs =>
    if a.toNat < b.toNat then true
    else if b.toNat < a.toNat then false
    else charListLt as bs

/-- Python `a < b` on strings. -/
def pyStrLt (a b : String) : Bool := charListLt a.data b.data

/-- Python `a <= b` on strings. -/
def pyStrLe (a b : String) : Bool := !(charListLt b.data a.data)

/-! ### `app/utils/time.py` -/

/-- Embedding of `parse_gtfs_time`: convert a GTFS `HH:MM:SS` string to
seconds since midnight; no modulo is applied, so hours `≥ 24` are kept.
Raising `ValueError` (empty string, not exactly three `:`-separated parts,
or a non-integer part) is embedded as `none`. -/
def parse_gtfs_time (value : String) : Option Int :=
  if value.data = [] then none
  else
    match splitCh ':' value.data with
    | [hp, mp, sp] => do
      let hours ← pyIntOfChars? hp
      let minutes ← pyIntOfChars? mp
      let seconds ← pyIntOfChars? sp
      pure (hours * 3600 + minutes * 60 + seconds)
    | _ => none

/-- Embedding of `format_seconds_as_time`: format seconds since midnight as
`HH:MM` (`f"{hours:02d}:{minutes:02d}"`); hours are computed without any
modulo-24 reduction. -/
def format_seconds_as_time (value : Int) : String :=
  let hours := value.fdiv 3600
  let minutes := (value.fmod 3600).fdiv 60
  ⟨pad2Int hours ++ ':' :: pad2Int minutes⟩

/-- The canonical zero-padded `HH:MM:SS` rendering of an hour/minute/second
triple; for `m, s < 60` these are exactly the well-formed GTFS time
strings. -/
def gtfsTimeString (h m s : Nat) : String :=
  ⟨pad2Nat h ++ ':' :: pad2Nat m ++ ':' :: pad2Nat s⟩

/-- The `HH:MM` rendering of an hour/minute pair without padding loss on
over-24 hours. -/
def hourMinuteString (h m : Nat) : String :=
  ⟨pad2Nat h ++ ':' :: pad2Nat m⟩

/-! ### `app/services/headways.py` — data model

Rows are loaded from JSON snapshots of the source CSV tables: every field is
a string; a field read with `row.get(...)` (which may be absent) is an
`Option String`, a field read with `row[...]` (whose absence would be a
`KeyError` on every input the pipeline produces) is a `String`. -/

structure TripRow where
  trip_id : String
  route_id : Option String
  service_id : Option String
  direction_id : Option String
deriving DecidableEq

structure StopTimeRow where
  trip_id : String
  stop_id : String
  stop_sequence : Option String
  departure_time : String
deriving DecidableEq

/-- A derived day-type record (`dim_calendar.json`). -/
structure DayTypeRec where
  day_type_id : String
  label : String
  service_ids : List String
deriving DecidableEq

structure HeadwayRec where
  feed_id : String
  day_type_id : String
  route_id : String
  direction_id : Option Int
  timebin_start : Int
  timebin_label : String
  departures : Nat
  headway_p50_min : Option ℚ
  headway_p90_min : Option ℚ
deriving DecidableEq

structure KpiRec where
  feed_id : String
  day_type_id : String
  route_id : String
  direction_id : Option Int
  first_departure : String
  last_departure : String
  departures : Nat
deriving DecidableEq

/-! ### Sort keys

Python's `sorted(..., key=...)` compares key tuples lexicographically.  All
key tuples used by this code fit the shape
`(str, str, int, int)` (shorter tuples are padded with a constant last
component), compared by `key4Le`. -/

def key4Le (a b : List Char × List Char × Int × Int) : Bool :=
  charListLt a.1 b.1 ||
    (a.1 = b.1 && (charListLt a.2.1 b.2.1 ||
      (a.2.1 = b.2.1 && (a.2.2.1 < b.2.2.1 ||
        (a.2.2.1 = b.2.2.1 && a.2.2.2 ≤ b.2.2.2)))))

/-- Embedding of the sort-key expression `row.get("direction_id") or -1`:
in Python both `None` and the integer `0` are falsy, so both are replaced
by the sentinel `-1`. -/
def pyDirKey (d : Option Int) : Int :=
  match d with
  | none => -1
  | some v => if v = 0 then -1 else v

def headwaySortKey (r : HeadwayRec) : List Char × List Char × Int × Int :=
  (r.day_type_id.data, r.route_id.data, pyDirKey r.direction_id, r.timebin_start)

def kpiSortKey (r : KpiRec) : List Char × List Char × Int × Int :=
  (r.day_type_id.data, r.route_id.data, pyDirKey r.direction_id, 0)

/-! ### Headway computations -/

/-- Embedding of `_normalise_direction`: `None` and `""` give `None`;
otherwise `int(value)`, with `ValueError` swallowed into `None`. -/
def normalise_direction (value : Option String) : Option Int :=
  match value with
  | none => none
  | some s => if s = "" then none else pyInt? s

/-- The sort key of `_compute_trip_departures`:
`(r["trip_id"], int(r.get("stop_sequence", "0") or 0))`; `int(...)` may
raise. -/
def stopTimeSeq? (r : StopTimeRow) : Option Int :=
  match r.stop_sequence with
  | none => some 0
  | some s => if s = "" then some 0 else pyInt? s

def stopTimeKeyLe (a b : String × Int) : Bool :=
  charListLt a.1.data b.1.data || (a.1 = b.1 && a.2 ≤ b.2)

/-- Embedding of `_compute_trip_departures`: sort the stop-time rows by
`(trip_id, stop_sequence)` (stable), then record for each trip the parsed
departure time of its first remaining row.  Any raised `ValueError` (from
`int(...)` on a sequence value or `parse_gtfs_time` on a departure time)
is embedded as `none`. -/
def compute_trip_departures (stop_times : List StopTimeRow) :
    Option (List (String × Int)) := do
  let keyed ← stop_times.mapM (fun r => do
    let seq ← stopTimeSeq? r
    pure ((r.trip_id, seq), r))
  let rows := (List.insertionSort (fun a b => stopTimeKeyLe a.1 b.1) keyed).map Prod.snd
  rows.foldlM (fun acc r =>
    if (acc.lookup r.trip_id).isSome then pure acc
    else do
      let t ← parse_gtfs_time r.departure_time
      pure (acc ++ [(r.trip_id, t)])) []

/-- Embedding of `collections.defaultdict(list)` with Python's
insertion-ordered dict iteration: append `v` to the bucket of `k`, creating
the bucket at the end on first use. -/
def insertGroup {κ ν : Type} [DecidableEq κ] (k : κ) (v : ν) :
    List (κ × List ν) → List (κ × List ν)
  | [] => [(k, [v])]
  | (k', vs) :: rest =>
    if k = k' then (k', vs ++ [v]) :: rest else (k', vs) :: insertGroup k v rest

def groupByKey {κ ν : Type} [DecidableEq κ] (pairs : List (κ × ν)) :
    List (κ × List ν) :=
  pairs.foldl (fun acc kv => insertGroup kv.1 kv.2 acc) []

/-- `trip.get("service_id") not in service_ids` skips the trip; `None` is
never a member of a list of strings. -/
def tripInService (service_ids : List String) (t : TripRow) : Bool :=
  match t.service_id with
  | some s => s ∈ service_ids
  | none => false

/-- `position = (len(sorted_values) - 1) * percentile`. -/
def percentilePosition (sorted_values : List Int) (p : ℚ) : ℚ :=
  ((sorted_values.length : ℚ) - 1) * p

/-- The interpolation step of `_percentile` on the already-sorted samples:
`lower = floor(position)`, `upper = ceil(position)`; return the exact
sample when they coincide, otherwise interpolate between the two ranked
samples weighted by the fractional part (list indexing is embedded with
`getD`; for `0 ≤ p ≤ 1` both indices are in range, as the source
assumes). -/
def percentileInterp (sorted_values : List Int) (p : ℚ) : ℚ :=
  if ⌊percentilePosition sorted_values p⌋ = ⌈percentilePosition sorted_values p⌉ then
    ((sorted_values.getD (⌊percentilePosition sorted_values p⌋).toNat 0 : Int) : ℚ)
  else
    ((sorted_values.getD (⌊percentilePosition sorted_values p⌋).toNat 0 : Int) : ℚ) +
      (percentilePosition sorted_values p - ((⌊percentilePosition sorted_values p⌋ : Int) : ℚ)) *
        (((sorted_values.getD (⌈percentilePosition sorted_values p⌉).toNat 0 : Int) : ℚ) -
          ((sorted_values.getD (⌊percentilePosition sorted_values p⌋).toNat 0 : Int) : ℚ))

/-- Embedding of `_percentile` over exact rationals: `math.nan` for the
empty list is embedded as `0` (unreachable, both call sites guard on a
non-empty sample list); a single sample is returned as-is; otherwise sort
and interpolate. -/
def percentile (values : List Int) (p : ℚ) : ℚ :=
  if values = [] then 0
  else if values.length = 1 then ((values.headD 0 : Int) : ℚ)
  else percentileInterp (List.insertionSort (fun a b => a ≤ b) values) p

/-- Successive differences `[b - a for a, b in zip(values[:-1], values[1:])]`. -/
def succDiffs (l : List Int) : List Int := l.zipWith (fun a b => b - a) l.tail

/-- The headway samples of a bucket: successive differences of the
ascending-sorted departure times. -/
def sortedDiffs (values : List Int) : List Int :=
  succDiffs (List.insertionSort (fun a b => a ≤ b) values)

/-- The body of the per-group loop of `compute_headways` (lines 91–111):
sort the departure times, take successive differences as headway samples,
and produce a record with interpolated p50/p90 in minutes (`None` when
there are fewer than two departures). -/
def mkHeadwayRec (feedId dayId : String) (key : String × Option Int × Int)
    (values : List Int) : HeadwayRec :=
  let sorted_values := List.insertionSort (fun a b => a ≤ b) values
  let diffs := if sorted_values.length > 1 then succDiffs sorted_values else []
  { feed_id := feedId
    day_type_id := dayId
    route_id := key.1
    direction_id := key.2.1
    timebin_start := key.2.2
    timebin_label := format_seconds_as_time key.2.2
    departures := sorted_values.length
    headway_p50_min := if diffs = [] then none else some (percentile diffs (1/2) / 60)
    headway_p90_min := if diffs = [] then none else some (percentile diffs (9/10) / 60) }

/-- The group key built at lines 86–89 of `compute_headways`:
`(route_id, direction, bucket)` with
`bucket = (first_departure // (timebin_minutes*60)) * (timebin_minutes*60)`. -/
def headwayGroupKey (route_id : String) (direction_raw : Option String)
    (bucket : Int) : String × Option Int × Int :=
  (route_id, normalise_direction direction_raw, bucket)

/-- The `(route, direction, bucket) ↦ first departure` pairs collected for
one day-type by `compute_headways`. -/
def headwayPairs (trips : List TripRow) (departures : List (String × Int))
    (service_ids : List String) (timebin_minutes : Int) :
    List ((String × Option Int × Int) × Int) :=
  trips.filterMap (fun trip =>
    if tripInService service_ids trip then
      match departures.lookup trip.trip_id with
      | none => none
      | some first_departure =>
        let bucket := (first_departure.fdiv (timebin_minutes * 60)) * (timebin_minutes * 60)
        some (headwayGroupKey (trip.route_id.getD "") trip.direction_id bucket,
          first_departure)
    else none)

/-- Embedding of `compute_headways` (the table-loading I/O is factored out:
the caller passes the already-loaded `trips`, `stop_times` and
`dim_calendar` tables, and `feed_dir.name` as `feedId`). -/
def compute_headways (feedId : String) (trips : List TripRow)
    (stop_times : List StopTimeRow) (calendar : List DayTypeRec)
    (timebin_minutes : Int) : Option (List HeadwayRec) := do
  let departures ← compute_trip_departures stop_times
  let results := calendar.foldl (fun acc day =>
    acc ++ (if day.service_ids = [] then []
      else
        (groupByKey (headwayPairs trips departures day.service_ids timebin_minutes)).map
          (fun g => mkHeadwayRec feedId day.day_type_id g.1 g.2))) []
  pure (List.insertionSort (fun a b => key4Le (headwaySortKey a) (headwaySortKey b)) results)

/-- The body of the per-group loop of `compute_service_kpis` (lines 155–167). -/
def mkKpiRec (feedId dayId : String) (key : String × Option Int)
    (values : List Int) : KpiRec :=
  let sorted_values := List.insertionSort (fun a b => a ≤ b) values
  { feed_id := feedId
    day_type_id := dayId
    route_id := key.1
    direction_id := key.2
    first_departure := format_seconds_as_time (sorted_values.headD 0)
    last_departure := format_seconds_as_time (sorted_values.getLastD 0)
    departures := sorted_values.length }

/-- The `(route, direction) ↦ first departure` pairs collected for one
day-type by `compute_service_kpis`. -/
def kpiPairs (trips : List TripRow) (departures : List (String × Int))
    (service_ids : List String) : List ((String × Option Int) × Int) :=
  trips.filterMap (fun trip =>
    if tripInService service_ids trip then
      match departures.lookup trip.trip_id with
      | none => none
      | some first_departure =>
        some ((trip.route_id.getD "", normalise_direction trip.direction_id),
          first_departure)
    else none)

/-- Embedding of `compute_service_kpis` (table loading factored out as for
`compute_headways`). -/
def compute_service_kpis (feedId : String) (trips : List TripRow)
    (stop_times : List StopTimeRow) (calendar : List DayTypeRec) :
    Option (List KpiRec) := do
  let departures ← compute_trip_departures stop_times
  let records := calendar.foldl (fun acc day =>
    acc ++ (if day.service_ids = [] then []
      else
        (groupByKey (kpiPairs trips departures day.service_ids)).map
          (fun g => mkKpiRec feedId day.day_type_id g.1 g.2))) []
  pure (List.insertionSort (fun a b => key4Le (kpiSortKey a) (kpiSortKey b)) records)

/-! ### `app/services/ingest.py` — day-type derivation -/

/-- A normalized calendar entry (`_normalise_calendar` coerces the seven
day-of-week columns with `int(...)`; dates are not needed by any claim and
are omitted). -/
structure CalRow where
  service_id : String
  monday : Int
  tuesday : Int
  wednesday : Int
  thursday : Int
  friday : Int
  saturday : Int
  sunday : Int
deriving DecidableEq

/-- A raw `calendar_dates.txt` row. -/
structure CalDateRow where
  service_id : String
  date : String
  exception_type : String
deriving DecidableEq

/-- The `WEEKDAY` predicate of `_build_day_types`: every weekday flag is 1
and both weekend flags are 0. -/
def predWeekday (r : CalRow) : Bool :=
  r.monday = 1 && r.tuesday = 1 && r.wednesday = 1 && r.thursday = 1 &&
    r.friday = 1 && r.saturday = 0 && r.sunday = 0

/-- The `SATURDAY` predicate of `_build_day_types`: the Saturday flag is 1
and the sum of all other flags is 0. -/
def predSaturday (r : CalRow) : Bool :=
  r.saturday = 1 &&
    (r.monday + r.tuesday + r.wednesday + r.thursday + r.friday + r.sunday) = 0

/-- The `SUNDAY` predicate of `_build_day_types`: the Sunday flag is 1 and
the sum of all other flags is 0. -/
def predSunday (r : CalRow) : Bool :=
  r.sunday = 1 &&
    (r.monday + r.tuesday + r.wednesday + r.thursday + r.friday + r.saturday) = 0

/-- The `add(...)` helper of `_build_day_types`: append a record only when
at least one service matches the predicate. -/
def addDayTypeRec (records : List DayTypeRec) (calendar : List CalRow)
    (dayTypeId label : String) (pred : CalRow → Bool) : List DayTypeRec :=
  let service_ids := (calendar.filter pred).map (fun r => r.service_id)
  if service_ids = [] then records else records ++ [⟨dayTypeId, label, service_ids⟩]

/-- Embedding of `_build_day_types`: classify into `WEEKDAY`, `SATURDAY`,
`SUNDAY` in that order; if no rule matched any service, emit a single
`ALL` day-type holding every service id of the calendar. -/
def build_day_types (calendar : List CalRow) : List DayTypeRec :=
  let records :=
    addDayTypeRec
      (addDayTypeRec
        (addDayTypeRec [] calendar "WEEKDAY" "Semaine" predWeekday)
        calendar "SATURDAY" "Samedi" predSaturday)
      calendar "SUNDAY" "Dimanche" predSunday
  if records = [] then
    [⟨"ALL", "Jour-type", calendar.map (fun r => r.service_id)⟩]
  else records

/-- Embedding of
`sorted({row.get("service_id") for row in trips if row.get("service_id")})`:
the distinct non-empty service ids of the trips table, sorted. -/
def fallbackServiceIds (trips : List TripRow) : List String :=
  List.insertionSort (fun a b => pyStrLe a b)
    (trips.filterMap (fun t =>
      match t.service_id with
      | some s => if s = "" then none else some s
      | none => none)).dedup

/-- Embedding of `_fallback_day_types`: used when the feed has no calendar
table; groups the trips' service ids into a single `ALL` day-type (empty
result when the trips reference no service at all). -/
def fallback_day_types (trips : List TripRow) : List DayTypeRec :=
  let service_ids := fallbackServiceIds trips
  if service_ids = [] then [] else [⟨"ALL", "Jour-type", service_ids⟩]

/-- Lines 167–172 of `ingest_gtfs`: derive day-types from the normalized
calendar when it is non-empty, otherwise fall back to the trips table.  A
feed whose archive lacks `calendar.txt` reaches this point with
`calendar = []`; `calendar_dates` rows play no role here. -/
def select_day_types (calendar : List CalRow) (trips : List TripRow) :
    List DayTypeRec :=
  if calendar = [] then fallback_day_types trips else build_day_types calendar

/-- Modelled from the spec: "every service referenced by a positive (type
"added") exception date" — the distinct service ids having at least one
`calendar_dates` entry with `exception_type == "1"`.  This is the day-type
membership the spec prescribes for calendar-less feeds; it is compared
against what the code actually computes. -/
def specPositiveExceptionServices (calendar_dates : List CalDateRow) :
    List String :=
  (calendar_dates.filterMap (fun r =>
    if r.exception_type = "1" then some r.service_id else none)).dedup

/-! ### `app/services/ingest.py` — the ingestion trace

`ingest_gtfs` is a sequence of filesystem effects.  The embedding records,
in program order, the directories created and the snapshot files written
(paths as component lists relative to `output_root`), together with the
outcome.  The SHA-1 content hash of the archive bytes (`_hash_file`, a
library call) is abstracted as an arbitrary function of the bytes, passed
in as `hashf`. -/

inductive IngestErr where
  | notFound
  | missingTables (names : List String)
deriving DecidableEq

inductive IngestOutcome where
  | ok (feedId : String)
  | err (e : IngestErr)
deriving DecidableEq

structure IngestTrace where
  dirsCreated : List (List String)
  filesWritten : List (List String)
  result : IngestOutcome
deriving DecidableEq

def GTFS_REQUIRED_FILES : List String := ["trips.txt", "stop_times.txt", "stops.txt"]

def feedDirPath (feedHash : String) : List String := ["feeds", feedHash]

def rawDirPath (feedHash : String) : List String := ["feeds", feedHash, "raw"]

def derivedDirPath (feedHash : String) : List String := ["feeds", feedHash, "derived"]

/-- `name[:-4]` for names ending in `.txt`, `none` otherwise. -/
def stripTxt? (name : String) : Option String :=
  if (".txt".data).isSuffixOf name.data then
    some ⟨name.data.take (name.data.length - 4)⟩
  else none

/-- Embedding of the effect sequence of `ingest_gtfs`, driven by the zip
entry listing (file contents do not decide any filesystem-shape claim and
are not tracked):
1. `output_root.mkdir(...)` — the root directory;
2. missing archive raises `FileNotFoundError`;
3. `raw_dir.mkdir(parents=True)` and `derived_dir.mkdir(parents=True)` —
   the per-hash snapshot directories are created here, before the archive
   listing is inspected;
4. missing mandatory tables raise
   `ValueError(f"Missing GTFS files: ...")` naming the missing files;
5. only then are the per-table snapshots and the three derived files
   written. -/
def ingest_gtfs (zipExists : Bool) (entryNames : List String)
    (feedHash : String) : IngestTrace :=
  let rootDirs : List (List String) := [[]]
  if !zipExists then ⟨rootDirs, [], .err .notFound⟩
  else
    let dirs := rootDirs ++
      [["feeds"], feedDirPath feedHash, rawDirPath feedHash, derivedDirPath feedHash]
    let missing := GTFS_REQUIRED_FILES.filter (fun n => n ∉ entryNames)
    if missing ≠ [] then ⟨dirs, [], .err (.missingTables missing)⟩
    else
      let tableNames := (entryNames.filterMap stripTxt?).dedup
      let files :=
        tableNames.map (fun t => rawDirPath feedHash ++ [t ++ ".json"]) ++
          [derivedDirPath feedHash ++ ["dim_calendar.json"],
           derivedDirPath feedHash ++ ["dim_stop.json"],
           derivedDirPath feedHash ++ ["dim_feed.json"]]
      ⟨dirs, files, .ok feedHash⟩

/-! ### `app/services/catalog.py` -/

/-- A registry record; `feed_id` is the upsert key, `updated_at` is
overwritten by `upsert_feed`, the remaining metadata is summarized in
`provider`. -/
structure FeedRecord where
  feed_id : String
  provider : Option String
  updated_at : String
deriving DecidableEq

/-- Embedding of `DatasetRegistry.upsert_feed`: drop every record whose
`feed_id` equals the incoming one, stamp `updated_at`, append, and store
the list sorted by `feed_id`. -/
def upsert_feed (feeds : List FeedRecord) (metadata : FeedRecord)
    (now : String) : List FeedRecord :=
  let kept := feeds.filter (fun f => f.feed_id ≠ metadata.feed_id)
  List.insertionSort (fun a b => pyStrLe a.feed_id b.feed_id)
    (kept ++ [{ metadata with updated_at := now }])

/-! ### `app/services/accessibility.py`

`_haversine_distance_m` is transcendental (radians, sin, cos, atan2, sqrt)
and has no shallow embedding into executable exact arithmetic; it is
abstracted as an arbitrary function `hav` of the two coordinate pairs.  No
claim about this module depends on the distance values themselves. -/

structure StopPt where
  stop_id : String
  lon : ℚ
  lat : ℚ
deriving DecidableEq

structure ZonePt where
  zone_id : String
  lon : ℚ
  lat : ℚ
deriving DecidableEq

structure SocioMetrics where
  population : Int
  jobs : Int
  schools : Int
deriving DecidableEq

structure CoverageRec where
  feed_id : String
  zone_id : String
  day_type_id : String
  threshold_min : Int
  stops_reachable : Nat
  pop_reachable : Int
  jobs_reachable : Int
  schools_reachable : Int
deriving DecidableEq

/-- Embedding of `_estimate_travel_minutes`:
`distance_m / (speed_kmh * 1000 / 60) + penalty_min`. -/
def estimate_travel_minutes (distance_m speed_kmh penalty_min : ℚ) : ℚ :=
  distance_m / (speed_kmh * 1000 / 60) + penalty_min

/-- The inner reachability loop of `compute_accessibility` (lines 178–183):
count the active stops whose estimated travel time from the zone centroid
is within the threshold (thresholds are `int` minutes in the source). -/
def zoneReachableCount (hav : ℚ → ℚ → ℚ → ℚ → ℚ) (zone : ZonePt)
    (stops : List StopPt) (speed_kmh penalty_min : ℚ) (threshold : Int) : Nat :=
  stops.countP (fun stop =>
    estimate_travel_minutes (hav zone.lon zone.lat stop.lon stop.lat)
      speed_kmh penalty_min ≤ (threshold : ℚ))

/-- The coverage record built at lines 184–195 of `compute_accessibility`:
socio counts are attributed in full when any stop is reachable
(`metrics[...] if reachable else 0`), zero otherwise. -/
def mkCoverageRecord (feedId : String) (zone : ZonePt) (dayId : String)
    (threshold : Int) (metrics : SocioMetrics) (reachable : Nat) : CoverageRec :=
  { feed_id := feedId
    zone_id := zone.zone_id
    day_type_id := dayId
    threshold_min := threshold
    stops_reachable := reachable
    pop_reachable := if reachable ≠ 0 then metrics.population else 0
    jobs_reachable := if reachable ≠ 0 then metrics.jobs else 0
    schools_reachable := if reachable ≠ 0 then metrics.schools else 0 }

/-- Embedding of `_load_active_stop_ids`: the sorted distinct stop ids
served by at least one trip whose service id belongs to the day-type. -/
def load_active_stop_ids (trips : List TripRow) (stop_times : List StopTimeRow)
    (service_ids : List String) : List String :=
  let activeTripIds := (trips.filter (tripInService service_ids)).map (fun t => t.trip_id)
  List.insertionSort (fun a b => pyStrLe a b)
    ((stop_times.filter (fun r => r.trip_id ∈ activeTripIds)).map (fun r => r.stop_id)).dedup

/-- Embedding of `_load_stops`: look each stop id up in the `dim_stop`
snapshot, skipping ids without a record. -/
def load_stops (dim_stop : List StopPt) (stop_ids : List String) : List StopPt :=
  stop_ids.filterMap (fun sid =>
    (dim_stop.find? (fun r => r.stop_id = sid)).map (fun r => ⟨sid, r.lon, r.lat⟩))

def coverageSortKey (r : CoverageRec) : List Char × List Char × Int × Int :=
  (r.zone_id.data, r.day_type_id.data, r.threshold_min, 0)

/-- Embedding of `compute_accessibility` (I/O factored out: the caller
passes the loaded zone centroids, day-type index, raw tables, stop
dimension and socio map; `hav` abstracts `_haversine_distance_m`). -/
def compute_accessibility (hav : ℚ → ℚ → ℚ → ℚ → ℚ) (feedId : String)
    (zones : List ZonePt) (calendar : List DayTypeRec) (trips : List TripRow)
    (stop_times : List StopTimeRow) (dim_stop : List StopPt)
    (socio : List (String × SocioMetrics)) (thresholds : List Int)
    (speed_kmh penalty_min : ℚ) : List CoverageRec :=
  let records := calendar.foldl (fun acc day =>
    acc ++ (if day.service_ids = [] then []
      else
        let stop_ids := load_active_stop_ids trips stop_times day.service_ids
        if stop_ids = [] then []
        else
          let stops := load_stops dim_stop stop_ids
          if stops = [] then []
          else
            zones.foldl (fun zacc zone =>
              let metrics := (socio.lookup zone.zone_id).getD ⟨0, 0, 0⟩
              zacc ++ thresholds.map (fun threshold =>
                mkCoverageRecord feedId zone day.day_type_id threshold metrics
                  (zoneReachableCount hav zone stops speed_kmh penalty_min threshold)))
              [])) []
  List.insertionSort (fun a b => key4Le (coverageSortKey a) (coverageSortKey b)) records

/-- Modelled from the spec: the ordering the claim asserts, in which a
missing direction sorts after every concrete direction value (and only
missing directions map to the sentinel). -/
def specDirKeyMissingLast (d : Option Int) : Int :=
  match d with
  | none => 2147483647
  | some v => v

def specKpiOrderLe (a b : KpiRec) : Bool :=
  key4Le (a.day_type_id.data, a.route_id.data, specDirKeyMissingLast a.direction_id, 0)
    (b.day_type_id.data, b.route_id.data, specDirKeyMissingLast b.direction_id, 0)

/-- The seven day-of-week columns of a normalized calendar row are boolean
flags (each 0 or 1), as the data model prescribes. -/
def CalRowBoolFlags (r : CalRow) : Prop :=
  (r.monday = 0 ∨ r.monday = 1) ∧ (r.tuesday = 0 ∨ r.tuesday = 1) ∧
    (r.wednesday = 0 ∨ r.wednesday = 1) ∧ (r.thursday = 0 ∨ r.thursday = 1) ∧
    (r.friday = 0 ∨ r.friday = 1) ∧ (r.saturday = 0 ∨ r.saturday = 1) ∧
    (r.sunday = 0 ∨ r.sunday = 1)

/-! ## Theorems -/

/-! ### Order lemmas for the embedded comparisons -/
theorem charListLt_irrefl (l : List Char) : charListLt l l = false := by
  induction l with
  | nil => rfl
  | cons a as ih => simp [charListLt, ih]

theorem charListLt_asymm : ∀ a b : List Char,
    charListLt a b = true → charListLt b a = false := by
  intro a
  induction a with
  | nil =>
    intro b h
    cases b with
    | nil => simp [charListLt] at h
    | cons c cs => simp [charListLt]
  | cons x xs ih =>
    intro b h
    cases b with
    | nil => simp [charListLt] at h
    | cons c cs =>
      simp only [charListLt] at h ⊢
      rcases Nat.lt_trichotomy x.toNat c.toNat with h1 | h1 | h1
      · have h2 : ¬ c.toNat < x.toNat := by omega
        simp [h1, h2]
      · have h2 : ¬ x.toNat < c.toNat := by omega
        have h3 : ¬ c.toNat < x.toNat := by omega
        simp only [h2, h3, if_false, ite_false] at h ⊢
        exact ih cs h
      · have h2 : ¬ x.toNat < c.toNat := by omega
        simp [h1, h2] at h

theorem charListLt_trans : ∀ a b c : List Char,
    charListLt a b = true → charListLt b c = true → charListLt a c = true := by
  intro a
  induction a with
  | nil =>
    intro b c hab hbc
    cases c with
    | nil =>
      cases b with
      | nil => simpa using hab
      | cons y ys => simp [charListLt] at hbc
    | cons z zs => simp [charListLt]
  | cons x xs ih =>
    intro b c hab hbc
    cases b with
    | nil => simp [charListLt] at hab
    | cons y ys =>
      cases c with
      | nil => simp [charListLt] at hbc
      | cons z zs =>
        simp only [charListLt] at hab hbc ⊢
        rcases Nat.lt_trichotomy x.toNat y.toNat with h1 | h1 | h1 <;>
          rcases Nat.lt_trichotomy y.toNat z.toNat with h2 | h2 | h2
        · have : x.toNat < z.toNat := by omega
          simp [this]
        · have : x.toNat < z.toNat := by omega
          simp [this]
        · have h3 : ¬ y.toNat < z.toNat := by omega
          simp [h3, h2] at hbc
        · have : x.toNat < z.toNat := by omega
          simp [this]
        · have h3 : ¬ x.toNat < y.toNat := by omega
          have h4 : ¬ y.toNat < x.toNat := by omega
          have h5 : ¬ y.toNat < z.toNat := by omega
          have h6 : ¬ z.toNat < y.toNat := by omega
          have h7 : ¬ x.toNat < z.toNat := by omega
          have h8 : ¬ z.toNat < x.toNat := by omega
          simp only [h3, h4, if_false, ite_false] at hab
          simp only [h5, h6, if_false, ite_false] at hbc
          simp only [h7, h8, if_false, ite_false]
          exact ih ys zs hab hbc
        · have h3 : ¬ y.toNat < z.toNat := by omega
          simp [h3, h2] at hbc
        · have h3 : ¬ x.toNat < y.toNat := by omega
          simp [h3, h1] at hab
        · have h3 : ¬ x.toNat < y.toNat := by omega
          simp [h3, h1] at hab
        · have h3 : ¬ x.toNat < y.toNat := by omega
          simp [h3, h1] at hab

theorem charListLt_eq : ∀ a b : List Char,
    charListLt a b = false → charListLt b a = false → a = b := by
  intro a
  induction a with
  | nil =>
    intro b hab _
    cases b with
    | nil => rfl
    | cons c cs => simp [charListLt] at hab
  | cons x xs ih =>
    intro b hab hba
    cases b with
    | nil => simp [charListLt] at hba
    | cons c cs =>
      simp only [charListLt] at hab hba
      rcases Nat.lt_trichotomy x.toNat c.toNat with h1 | h1 | h1
      · simp [h1] at hab
      · have h2 : ¬ x.toNat < c.toNat := by omega
        have h3 : ¬ c.toNat < x.toNat := by omega
        simp only [h2, h3, if_false, ite_false] at hab hba
        have hx : x = c := Char.ext (UInt32.toNat.inj h1)
        rw [hx, ih cs hab hba]
      · simp [h1] at hba
theorem key4Le_total (a b : List Char × List Char × Int × Int) :
    key4Le a b = true ∨ key4Le b a = true := by
  obtain ⟨a1, a2, a3, a4⟩ := a
  obtain ⟨b1, b2, b3, b4⟩ := b
  simp only [key4Le, Bool.or_eq_true, Bool.and_eq_true, decide_eq_true_eq]
  by_cases c1 : charListLt a1 b1 = true
  · exact Or.inl (Or.inl c1)
  · by_cases d1 : charListLt b1 a1 = true
    · exact Or.inr (Or.inl d1)
    · have e1 : a1 = b1 :=
        charListLt_eq _ _ (Bool.eq_false_iff.mpr c1 ▸ rfl) (Bool.eq_false_iff.mpr d1 ▸ rfl)
      subst e1
      by_cases c2 : charListLt a2 b2 = true
      · exact Or.inl (Or.inr ⟨rfl, Or.inl c2⟩)
      · by_cases d2 : charListLt b2 a2 = true
        · exact Or.inr (Or.inr ⟨rfl, Or.inl d2⟩)
        · have e2 : a2 = b2 :=
            charListLt_eq _ _ (Bool.eq_false_iff.mpr c2 ▸ rfl) (Bool.eq_false_iff.mpr d2 ▸ rfl)
          subst e2
          rcases Int.lt_trichotomy a3 b3 with h3 | h3 | h3
          · exact Or.inl (Or.inr ⟨rfl, Or.inr ⟨rfl, Or.inl h3⟩⟩)
          · subst h3
            rcases Int.le_total a4 b4 with h4 | h4
            · exact Or.inl (Or.inr ⟨rfl, Or.inr ⟨rfl, Or.inr ⟨rfl, h4⟩⟩⟩)
            · exact Or.inr (Or.inr ⟨rfl, Or.inr ⟨rfl, Or.inr ⟨rfl, h4⟩⟩⟩)
          · exact Or.inr (Or.inr ⟨rfl, Or.inr ⟨rfl, Or.inl h3⟩⟩)

theorem key4Le_trans (a b c : List Char × List Char × Int × Int)
    (hab : key4Le a b = true) (hbc : key4Le b c = true) : key4Le a c = true := by
  obtain ⟨a1, a2, a3, a4⟩ := a
  obtain ⟨b1, b2, b3, b4⟩ := b
  obtain ⟨c1, c2, c3, c4⟩ := c
  simp only [key4Le, Bool.or_eq_true, Bool.and_eq_true, decide_eq_true_eq] at hab hbc ⊢
  rcases hab with hab | ⟨rfl, hab⟩
  · rcases hbc with hbc | ⟨rfl, hbc⟩
    · exact Or.inl (charListLt_trans _ _ _ hab hbc)
    · exact Or.inl hab
  · rcases hbc with hbc | ⟨rfl, hbc⟩
    · exact Or.inl hbc
    · refine Or.inr ⟨rfl, ?_⟩
      rcases hab with hab | ⟨rfl, hab⟩
      · rcases hbc with hbc | ⟨rfl, hbc⟩
        · exact Or.inl (charListLt_trans _ _ _ hab hbc)
        · exact Or.inl hab
      · rcases hbc with hbc | ⟨rfl, hbc⟩
        · exact Or.inl hbc
        · refine Or.inr ⟨rfl, ?_⟩
          rcases hab with hab | ⟨rfl, hab⟩
          · rcases hbc with hbc | ⟨rfl, hbc⟩
            · exact Or.inl (lt_trans hab hbc)
            · exact Or.inl hab
          · rcases hbc with hbc | ⟨rfl, hbc⟩
            · exact Or.inl hbc
            · exact Or.inr ⟨rfl, le_trans hab hbc⟩

/-- `sorted(..., key=...)` with a `key4Le` key produces a list that is
pairwise ordered by that key. -/
theorem sorted_insertionSort_key4 {α : Type} (key : α → List Char × List Char × Int × Int)
    (l : List α) :
    (List.insertionSort (fun a b => key4Le (key a) (key b)) l).Sorted
      (fun a b => key4Le (key a) (key b) = true) := by
  haveI : IsTotal α (fun a b => (key4Le (key a) (key b) : Prop)) :=
    ⟨fun a b => key4Le_total (key a) (key b)⟩
  haveI : IsTrans α (fun a b => (key4Le (key a) (key b) : Prop)) :=
    ⟨fun a b c => key4Le_trans (key a) (key b) (key c)⟩
  exact List.sorted_insertionSort _ l

theorem pyStrLe_total (a b : String) : pyStrLe a b = true ∨ pyStrLe b a = true := by
  simp only [pyStrLe, Bool.not_eq_true']
  by_cases h : charListLt b.data a.data = true
  · exact Or.inr (charListLt_asymm _ _ h)
  · exact Or.inl (Bool.eq_false_iff.mpr h ▸ rfl)

theorem pyStrLe_trans (a b c : String) (hab : pyStrLe a b = true)
    (hbc : pyStrLe b c = true) : pyStrLe a c = true := by
  simp only [pyStrLe, Bool.not_eq_true'] at hab hbc ⊢
  by_cases hca : charListLt c.data a.data = true
  · by_cases hab2 : charListLt a.data b.data = true
    · have := charListLt_trans _ _ _ hca hab2
      rw [this] at hbc
      exact absurd hbc (by simp)
    · have : a.data = b.data :=
        charListLt_eq _ _ (Bool.eq_false_iff.mpr hab2 ▸ rfl) hab
      rw [← this] at hbc
      rw [hca] at hbc
      exact absurd hbc (by simp)
  · exact Bool.eq_false_iff.mpr hca ▸ rfl
/-! ### C3 — output ordering of `compute_headways` / `compute_service_kpis` -/

/-- C3, counterexample: a feed with two trips on route `R` under one
day-type, one with `direction_id = "1"` and one with no direction at all.
The sort key `row.get("direction_id") or -1` maps the missing direction to
`-1`, which sorts *before* the concrete direction `1`, so the returned
list is not ordered the way the claim states (missing direction last). -/
theorem c3_counterexample :
    (compute_service_kpis "f"
        [⟨"t1", some "R", some "s", some "1"⟩, ⟨"t2", some "R", some "s", none⟩]
        [⟨"t1", "S1", some "1", "08:00:00"⟩, ⟨"t2", "S1", some "1", "09:00:00"⟩]
        [⟨"ALL", "Jour-type", ["s"]⟩]).map
        (fun l => l.map (fun r => r.direction_id)) = some [none, some 1] ∧
    ∀ out, compute_service_kpis "f"
        [⟨"t1", some "R", some "s", some "1"⟩, ⟨"t2", some "R", some "s", none⟩]
        [⟨"t1", "S1", some "1", "08:00:00"⟩, ⟨"t2", "S1", some "1", "09:00:00"⟩]
        [⟨"ALL", "Jour-type", ["s"]⟩] = some out →
      ¬ out.Pairwise (fun a b => specKpiOrderLe a b = true) := by
  constructor
  · decide
  · intro out hout
    have : out =
        [{ feed_id := "f", day_type_id := "ALL", route_id := "R", direction_id := none,
           first_departure := "09:00", last_departure := "09:00", departures := 1 },
         { feed_id := "f", day_type_id := "ALL", route_id := "R", direction_id := some 1,
           first_departure := "08:00", last_departure := "08:00", departures := 1 }] := by
      have h2 := hout
      rw [show compute_service_kpis "f"
          [⟨"t1", some "R", some "s", some "1"⟩, ⟨"t2", some "R", some "s", none⟩]
          [⟨"t1", "S1", some "1", "08:00:00"⟩, ⟨"t2", "S1", some "1", "09:00:00"⟩]
          [⟨"ALL", "Jour-type", ["s"]⟩] = some
          [{ feed_id := "f", day_type_id := "ALL", route_id := "R", direction_id := none,
             first_departure := "09:00", last_departure := "09:00", departures := 1 },
           { feed_id := "f", day_type_id := "ALL", route_id := "R", direction_id := some 1,
             first_departure := "08:00", last_departure := "08:00", departures := 1 }]
        from by decide] at h2
      exact (Option.some_inj.mp h2).symm
    subst this
    decide

/-- C3 (amended): the record lists returned by `compute_headways` and
`compute_service_kpis` are sorted by the key
(day-type, route, `direction or -1`, bucket / nothing), where Python's
`or` maps both a missing direction *and* the concrete direction `0` to the
sentinel `-1`; consequently missing-direction groups sort together with
direction-0 groups and *before* the positive concrete directions, not
after them. -/
theorem c3_amended (feedId : String) (trips : List TripRow)
    (stop_times : List StopTimeRow) (calendar : List DayTypeRec)
    (timebin_minutes : Int) :
    (∀ out, compute_headways feedId trips stop_times calendar timebin_minutes = some out →
      out.Sorted (fun a b => key4Le (headwaySortKey a) (headwaySortKey b) = true)) ∧
    (∀ out, compute_service_kpis feedId trips stop_times calendar = some out →
      out.Sorted (fun a b => key4Le (kpiSortKey a) (kpiSortKey b) = true)) := by
  constructor
  · intro out hout
    cases hdep : compute_trip_departures stop_times with
    | none => simp [compute_headways, hdep] at hout
    | some deps =>
      simp only [compute_headways, hdep, Option.bind_eq_bind, Option.some_bind,
        Option.pure_def, Option.some_inj] at hout
      subst hout
      exact sorted_insertionSort_key4 headwaySortKey _
  · intro out hout
    cases hdep : compute_trip_departures stop_times with
    | none => simp [compute_service_kpis, hdep] at hout
    | some deps =>
      simp only [compute_service_kpis, hdep, Option.bind_eq_bind, Option.some_bind,
        Option.pure_def, Option.some_inj] at hout
      subst hout
      exact sorted_insertionSort_key4 kpiSortKey _

/-- Witness for C3 (amended) at the concrete counterexample feed. -/
theorem c3_witness :
    [({ feed_id := "f", day_type_id := "ALL", route_id := "R", direction_id := none,
        first_departure := "09:00", last_departure := "09:00", departures := 1 } : KpiRec),
     { feed_id := "f", day_type_id := "ALL", route_id := "R", direction_id := some 1,
        first_departure := "08:00", last_departure := "08:00", departures := 1 }].Sorted
      (fun a b => key4Le (kpiSortKey a) (kpiSortKey b) = true) :=
  (c3_amended "f"
      [⟨"t1", some "R", some "s", some "1"⟩, ⟨"t2", some "R", some "s", none⟩]
      [⟨"t1", "S1", some "1", "08:00:00"⟩, ⟨"t2", "S1", some "1", "09:00:00"⟩]
      [⟨"ALL", "Jour-type", ["s"]⟩] 15).2 _ (by decide)
/-! ### C6 — threshold monotonicity of reachability -/

/-- C6: for a fixed feed, zone and day-type (hence a fixed active-stop set
and fixed distances), the reachable-stop count computed by the inner loop
of `compute_accessibility` is monotonically non-decreasing in the
threshold. -/
theorem c6_reachable_monotone (hav : ℚ → ℚ → ℚ → ℚ → ℚ) (zone : ZonePt)
    (stops : List StopPt) (speed_kmh penalty_min : ℚ) (t1 t2 : Int)
    (h : t1 ≤ t2) :
    zoneReachableCount hav zone stops speed_kmh penalty_min t1 ≤
      zoneReachableCount hav zone stops speed_kmh penalty_min t2 := by
  unfold zoneReachableCount
  apply List.countP_mono_left
  intro stop _ hle
  simp only [decide_eq_true_eq] at hle ⊢
  calc estimate_travel_minutes (hav zone.lon zone.lat stop.lon stop.lat)
        speed_kmh penalty_min ≤ (t1 : ℚ) := hle
    _ ≤ (t2 : ℚ) := by exact_mod_cast h

/-- Witness for C6 at a concrete zone/day-type and thresholds 15 ≤ 30. -/
theorem c6_witness :
    (15 : Int) ≤ 30 ∧
      zoneReachableCount (fun _ _ _ _ => 0) ⟨"Z1", 0, 0⟩ [] 25 5 15 ≤
        zoneReachableCount (fun _ _ _ _ => 0) ⟨"Z1", 0, 0⟩ [] 25 5 30 :=
  ⟨by decide, c6_reachable_monotone (fun _ _ _ _ => 0) ⟨"Z1", 0, 0⟩ [] 25 5 15 30 (by decide)⟩

/-! ### C9 — all-or-nothing socio attribution -/

/-- C9: a coverage record built by `compute_accessibility` carries the
zone's full population/jobs/schools counts when its reachable-stop count is
positive, and zeroes when it is zero. -/
theorem c9_socio_all_or_nothing (hav : ℚ → ℚ → ℚ → ℚ → ℚ) (feedId : String)
    (zone : ZonePt) (dayId : String) (threshold : Int) (metrics : SocioMetrics)
    (stops : List StopPt) (speed_kmh penalty_min : ℚ) :
    (0 < (mkCoverageRecord feedId zone dayId threshold metrics
        (zoneReachableCount hav zone stops speed_kmh penalty_min threshold)).stops_reachable →
      (mkCoverageRecord feedId zone dayId threshold metrics
        (zoneReachableCount hav zone stops speed_kmh penalty_min threshold)).pop_reachable
          = metrics.population ∧
      (mkCoverageRecord feedId zone dayId threshold metrics
        (zoneReachableCount hav zone stops speed_kmh penalty_min threshold)).jobs_reachable
          = metrics.jobs ∧
      (mkCoverageRecord feedId zone dayId threshold metrics
        (zoneReachableCount hav zone stops speed_kmh penalty_min threshold)).schools_reachable
          = metrics.schools) ∧
    ((mkCoverageRecord feedId zone dayId threshold metrics
        (zoneReachableCount hav zone stops speed_kmh penalty_min threshold)).stops_reachable = 0 →
      (mkCoverageRecord feedId zone dayId threshold metrics
        (zoneReachableCount hav zone stops speed_kmh penalty_min threshold)).pop_reachable = 0 ∧
      (mkCoverageRecord feedId zone dayId threshold metrics
        (zoneReachableCount hav zone stops speed_kmh penalty_min threshold)).jobs_reachable = 0 ∧
      (mkCoverageRecord feedId zone dayId threshold metrics
        (zoneReachableCount hav zone stops speed_kmh penalty_min threshold)).schools_reachable = 0) := by
  constructor
  · intro hpos
    have hne : zoneReachableCount hav zone stops speed_kmh penalty_min threshold ≠ 0 := by
      simpa [mkCoverageRecord] using Nat.pos_iff_ne_zero.mp hpos
    simp [mkCoverageRecord, hne]
  · intro hzero
    have hz : zoneReachableCount hav zone stops speed_kmh penalty_min threshold = 0 := by
      simpa [mkCoverageRecord] using hzero
    simp [mkCoverageRecord, hz]

/-- Witness for C9: with no active stops the reachable count is zero and
all three socio fields are zero. -/
theorem c9_witness :
    (mkCoverageRecord "f" ⟨"Z1", 0, 0⟩ "ALL" 15 ⟨7, 8, 9⟩
        (zoneReachableCount (fun _ _ _ _ => 0) ⟨"Z1", 0, 0⟩ [] 25 5 15)).pop_reachable = 0 ∧
    (mkCoverageRecord "f" ⟨"Z1", 0, 0⟩ "ALL" 15 ⟨7, 8, 9⟩
        (zoneReachableCount (fun _ _ _ _ => 0) ⟨"Z1", 0, 0⟩ [] 25 5 15)).jobs_reachable = 0 ∧
    (mkCoverageRecord "f" ⟨"Z1", 0, 0⟩ "ALL" 15 ⟨7, 8, 9⟩
        (zoneReachableCount (fun _ _ _ _ => 0) ⟨"Z1", 0, 0⟩ [] 25 5 15)).schools_reachable = 0 :=
  (c9_socio_all_or_nothing (fun _ _ _ _ => 0) "f" ⟨"Z1", 0, 0⟩ "ALL" 15 ⟨7, 8, 9⟩ [] 25 5).2 rfl

/-! ### C10 — malformed direction values -/

/-- C10: a `direction_id` that is `None`, the empty string, or unparsable
as an integer normalises to the missing direction without an error, so in
both `compute_headways` and `compute_service_kpis` such trips land in the
same group as trips with no direction at all. -/
theorem c10_malformed_direction (v : Option String)
    (hmal : v = none ∨ v = some "" ∨ ∃ s, v = some s ∧ pyInt? s = none) :
    normalise_direction v = none ∧
    (∀ (route_id : String) (bucket : Int),
      headwayGroupKey route_id v bucket = headwayGroupKey route_id none bucket) ∧
    (∀ route_id : String,
      (route_id, normalise_direction v) = (route_id, normalise_direction none)) := by
  have hnone : normalise_direction v = none := by
    rcases hmal with rfl | rfl | ⟨s, rfl, hs⟩
    · rfl
    · rfl
    · by_cases hse : s = ""
      · simp [normalise_direction, hse]
      · simp [normalise_direction, hse, hs]
  refine ⟨hnone, ?_, ?_⟩
  · intro route_id bucket
    simp [headwayGroupKey, hnone, show normalise_direction none = none from rfl]
  · intro route_id
    simp [hnone, show normalise_direction none = none from rfl]

/-- Witness for C10 at the unparsable direction string `"x"`. -/
theorem c10_witness :
    (some "x" = none ∨ some "x" = some "" ∨
      ∃ s, some "x" = some s ∧ pyInt? s = none) ∧
    normalise_direction (some "x") = none :=
  ⟨Or.inr (Or.inr ⟨"x", rfl, by decide⟩),
    (c10_malformed_direction (some "x")
      (Or.inr (Or.inr ⟨"x", rfl, by decide⟩))).1⟩
/-! ### C8 — idempotent re-ingestion and registry upsert -/

theorem countP_insertionSort {α : Type} (p : α → Bool) (r : α → α → Prop)
    [DecidableRel r] (l : List α) :
    (List.insertionSort r l).countP p = l.countP p :=
  (List.perm_insertionSort r l).countP_eq p

theorem sorted_insertionSort_pyStrLeKey {α : Type} (key : α → String) (l : List α) :
    (List.insertionSort (fun a b => pyStrLe (key a) (key b)) l).Sorted
      (fun a b => pyStrLe (key a) (key b) = true) := by
  haveI : IsTotal α (fun a b => (pyStrLe (key a) (key b) : Prop)) :=
    ⟨fun a b => pyStrLe_total (key a) (key b)⟩
  haveI : IsTrans α (fun a b => (pyStrLe (key a) (key b) : Prop)) :=
    ⟨fun a b c => pyStrLe_trans (key a) (key b) (key c)⟩
  exact List.sorted_insertionSort _ l

theorem upsert_feed_countP (feeds : List FeedRecord) (metadata : FeedRecord)
    (now : String) (fid : String) (hfid : metadata.feed_id = fid) :
    (upsert_feed feeds metadata now).countP (fun f => f.feed_id = fid) = 1 := by
  unfold upsert_feed
  rw [countP_insertionSort]
  rw [List.countP_append]
  have hkept : (feeds.filter (fun f => f.feed_id ≠ metadata.feed_id)).countP
      (fun f => f.feed_id = fid) = 0 := by
    rw [List.countP_eq_zero]
    intro f hf
    have := (List.mem_filter.mp hf).2
    simp only [ne_eq, decide_not, Bool.not_eq_true', decide_eq_false_iff_not] at this
    simp only [decide_eq_true_eq]
    rw [hfid] at this
    exact this
  rw [hkept]
  simp [hfid]

/-- C8: ingesting byte-identical archive bytes twice yields the same feed
identifier (the content hash is a function of the bytes; `_hash_file` is
abstracted as `hashf`), and after two upserts under that identifier the
registry holds exactly one record for it and stays sorted by feed id. -/
theorem c8_idempotent_registry (hashf : List Nat → String) (bytes : List Nat)
    (reg : List FeedRecord) (meta1 meta2 : FeedRecord) (now1 now2 : String)
    (h1 : meta1.feed_id = hashf bytes) (h2 : meta2.feed_id = hashf bytes) :
    hashf bytes = hashf bytes ∧
    (upsert_feed (upsert_feed reg meta1 now1) meta2 now2).countP
      (fun f => f.feed_id = hashf bytes) = 1 ∧
    (upsert_feed (upsert_feed reg meta1 now1) meta2 now2).Sorted
      (fun a b => pyStrLe a.feed_id b.feed_id = true) := by
  refine ⟨rfl, upsert_feed_countP _ _ _ _ h2, ?_⟩
  exact sorted_insertionSort_pyStrLeKey (fun f : FeedRecord => f.feed_id) _

/-- Witness for C8: two upserts of the same content hash `"h"` starting
from an empty registry. -/
theorem c8_witness :
    (upsert_feed (upsert_feed [] ⟨"h", some "p1", ""⟩ "t1") ⟨"h", some "p2", ""⟩ "t2").countP
      (fun f : FeedRecord => f.feed_id = (fun _ : List Nat => "h") []) = 1 ∧
    (upsert_feed (upsert_feed [] ⟨"h", some "p1", ""⟩ "t1") ⟨"h", some "p2", ""⟩ "t2").Sorted
      (fun a b => pyStrLe a.feed_id b.feed_id = true) :=
  ⟨(c8_idempotent_registry (fun _ => "h") [] [] ⟨"h", some "p1", ""⟩ ⟨"h", some "p2", ""⟩
      "t1" "t2" rfl rfl).2.1,
   (c8_idempotent_registry (fun _ => "h") [] [] ⟨"h", some "p1", ""⟩ ⟨"h", some "p2", ""⟩
      "t1" "t2" rfl rfl).2.2⟩
/-! ### C7 — day-type classification from calendar rules -/

/-- C7: over a non-empty normalized calendar with boolean day flags, the
classification predicates coincide with the spec's characterisations
(`WEEKDAY` iff all five weekday flags are 1 and both weekend flags 0;
`SATURDAY` iff only the Saturday flag is 1; `SUNDAY` iff only the Sunday
flag is 1); when no service matches any canonical rule the derivation
emits exactly one `ALL` day-type holding every service id, and the
derivation never returns an empty index. -/
theorem c7_day_type_classification (cal : List CalRow) (hne : cal ≠ [])
    (hb : ∀ r ∈ cal, CalRowBoolFlags r) :
    (∀ r ∈ cal, (predWeekday r = true ↔
        (r.monday = 1 ∧ r.tuesday = 1 ∧ r.wednesday = 1 ∧ r.thursday = 1 ∧
          r.friday = 1 ∧ r.saturday = 0 ∧ r.sunday = 0)) ∧
      (predSaturday r = true ↔
        (r.saturday = 1 ∧ r.monday = 0 ∧ r.tuesday = 0 ∧ r.wednesday = 0 ∧
          r.thursday = 0 ∧ r.friday = 0 ∧ r.sunday = 0)) ∧
      (predSunday r = true ↔
        (r.sunday = 1 ∧ r.monday = 0 ∧ r.tuesday = 0 ∧ r.wednesday = 0 ∧
          r.thursday = 0 ∧ r.friday = 0 ∧ r.saturday = 0))) ∧
    ((∀ r ∈ cal, predWeekday r = false ∧ predSaturday r = false ∧ predSunday r = false) →
      build_day_types cal =
        [⟨"ALL", "Jour-type", cal.map (fun r => r.service_id)⟩]) ∧
    build_day_types cal ≠ [] := by
  refine ⟨?_, ?_, ?_⟩
  · intro r hr
    obtain ⟨hm, ht, hw, hth, hf, hsa, hsu⟩ := hb r hr
    refine ⟨?_, ?_, ?_⟩
    · simp only [predWeekday, Bool.and_eq_true, decide_eq_true_eq]
      constructor
      · rintro ⟨⟨⟨⟨⟨⟨h1, h2⟩, h3⟩, h4⟩, h5⟩, h6⟩, h7⟩
        exact ⟨h1, h2, h3, h4, h5, h6, h7⟩
      · rintro ⟨h1, h2, h3, h4, h5, h6, h7⟩
        exact ⟨⟨⟨⟨⟨⟨h1, h2⟩, h3⟩, h4⟩, h5⟩, h6⟩, h7⟩
    · simp only [predSaturday, Bool.and_eq_true, decide_eq_true_eq]
      omega
    · simp only [predSunday, Bool.and_eq_true, decide_eq_true_eq]
      omega
  · intro hnomatch
    have hwk : cal.filter predWeekday = [] :=
      List.filter_eq_nil_iff.mpr (fun r hr => by simp [(hnomatch r hr).1])
    have hsa : cal.filter predSaturday = [] :=
      List.filter_eq_nil_iff.mpr (fun r hr => by simp [(hnomatch r hr).2.1])
    have hsu : cal.filter predSunday = [] :=
      List.filter_eq_nil_iff.mpr (fun r hr => by simp [(hnomatch r hr).2.2])
    simp [build_day_types, addDayTypeRec, hwk, hsa, hsu]
  · unfold build_day_types
    by_cases hrec :
        addDayTypeRec (addDayTypeRec (addDayTypeRec [] cal "WEEKDAY" "Semaine" predWeekday)
          cal "SATURDAY" "Samedi" predSaturday) cal "SUNDAY" "Dimanche" predSunday = []
    · simp [hrec]
    · simp [hrec]

/-- Witness for C7 at a one-row weekday-only calendar. -/
theorem c7_witness :
    ([(⟨"WD", 1, 1, 1, 1, 1, 0, 0⟩ : CalRow)] ≠ [] ∧
      ∀ r ∈ [(⟨"WD", 1, 1, 1, 1, 1, 0, 0⟩ : CalRow)], CalRowBoolFlags r) ∧
    build_day_types [(⟨"WD", 1, 1, 1, 1, 1, 0, 0⟩ : CalRow)] ≠ [] :=
  ⟨⟨by decide, by
      intro r hr
      rw [List.mem_singleton] at hr
      subst hr
      exact ⟨Or.inr rfl, Or.inr rfl, Or.inr rfl, Or.inr rfl, Or.inr rfl, Or.inl rfl, Or.inl rfl⟩⟩,
    (c7_day_type_classification [⟨"WD", 1, 1, 1, 1, 1, 0, 0⟩] (by decide) (by
      intro r hr
      rw [List.mem_singleton] at hr
      subst hr
      exact ⟨Or.inr rfl, Or.inr rfl, Or.inr rfl, Or.inr rfl, Or.inr rfl, Or.inl rfl, Or.inl rfl⟩)).2.2⟩

/-! ### C2 — calendar-less feeds: the `ALL` fallback day-type -/

/-- C2, counterexample: an archive with no `calendar` table, whose
`calendar_dates` holds one positive ("added") exception for service `"X"`,
and whose trips reference only service `"Y"`.  The spec says the `ALL`
day-type must contain exactly the positively-excepted services (`["X"]`);
the code builds it from the trips table instead and produces `["Y"]`. -/
theorem c2_counterexample :
    select_day_types [] [⟨"t1", some "R", some "Y", none⟩] =
      [⟨"ALL", "Jour-type", ["Y"]⟩] ∧
    specPositiveExceptionServices [⟨"X", "20240101", "1"⟩] = ["X"] ∧
    ¬ (["Y"] = ["X"]) := by
  refine ⟨by decide, by decide, by decide⟩

/-- C2 (amended): when the normalized calendar is empty, the day-type index
is derived from the *trips* table, not from `calendar_dates`: it is the
single `ALL` day-type whose members are exactly the distinct non-empty
service ids referenced by at least one trip, sorted (and it is empty when
no trip references a service). -/
theorem c2_amended (trips : List TripRow)
    (h : fallbackServiceIds trips ≠ []) :
    select_day_types [] trips = [⟨"ALL", "Jour-type", fallbackServiceIds trips⟩] ∧
    (∀ s : String, s ∈ fallbackServiceIds trips ↔
      ∃ t ∈ trips, t.service_id = some s ∧ s ≠ "") := by
  constructor
  · simp [select_day_types, fallback_day_types, h]
  · intro s
    unfold fallbackServiceIds
    rw [List.mem_insertionSort, List.mem_dedup, List.mem_filterMap]
    constructor
    · rintro ⟨t, ht, hsome⟩
      refine ⟨t, ht, ?_⟩
      cases hsid : t.service_id with
      | none =>
        rw [hsid] at hsome
        simp at hsome
      | some s' =>
        rw [hsid] at hsome
        by_cases hse : s' = ""
        · simp [hse] at hsome
        · simp [hse] at hsome
          subst hsome
          exact ⟨rfl, hse⟩
    · rintro ⟨t, ht, hsid, hse⟩
      refine ⟨t, ht, ?_⟩
      rw [hsid]
      simp [hse]

/-- Witness for C2 (amended) at a one-trip feed. -/
theorem c2_witness :
    fallbackServiceIds [⟨"t1", some "R", some "WD", none⟩] ≠ [] ∧
    select_day_types [] [⟨"t1", some "R", some "WD", none⟩] =
      [⟨"ALL", "Jour-type", fallbackServiceIds [⟨"t1", some "R", some "WD", none⟩]⟩] :=
  ⟨by decide, (c2_amended [⟨"t1", some "R", some "WD", none⟩] (by decide)).1⟩

/-! ### C1 — missing mandatory tables and ingestion atomicity -/

/-- C1, counterexample: an archive listing only `trips.txt` and `stops.txt`
(no `stop_times.txt`).  Ingestion fails with the missing-table error naming
the missing file and writes no snapshot file, but the output directory for
the archive's content hash *is* created (the `mkdir` calls precede the
archive validation), contradicting the claim's "no output directory for
that archive's content hash is created". -/
theorem c1_counterexample :
    (ingest_gtfs true ["trips.txt", "stops.txt"] "cafe").result =
      .err (.missingTables ["stop_times.txt"]) ∧
    (ingest_gtfs true ["trips.txt", "stops.txt"] "cafe").filesWritten = [] ∧
    feedDirPath "cafe" ∈ (ingest_gtfs true ["trips.txt", "stops.txt"] "cafe").dirsCreated := by
  refine ⟨by decide, by decide, by decide⟩

/-- C1 (amended): for every archive listing that lacks at least one
mandatory table, ingestion raises the missing-table error naming exactly
the missing files and writes no snapshot file; however the output
directories for the archive's content hash (`feeds/<hash>`,
`feeds/<hash>/raw`, `feeds/<hash>/derived`) have already been created, so
an empty directory for that content hash is left behind. -/
theorem c1_amended (entryNames : List String) (feedHash : String)
    (hmiss : GTFS_REQUIRED_FILES.filter (fun n => n ∉ entryNames) ≠ []) :
    (ingest_gtfs true entryNames feedHash).result =
      .err (.missingTables (GTFS_REQUIRED_FILES.filter (fun n => n ∉ entryNames))) ∧
    (ingest_gtfs true entryNames feedHash).filesWritten = [] ∧
    feedDirPath feedHash ∈ (ingest_gtfs true entryNames feedHash).dirsCreated ∧
    rawDirPath feedHash ∈ (ingest_gtfs true entryNames feedHash).dirsCreated ∧
    derivedDirPath feedHash ∈ (ingest_gtfs true entryNames feedHash).dirsCreated := by
  have hex : ∃ x ∈ GTFS_REQUIRED_FILES, x ∉ entryNames := by
    by_contra hno
    push_neg at hno
    exact hmiss (List.filter_eq_nil_iff.mpr (by intro a ha; simp [hno a ha]))
  simp [ingest_gtfs, hex]

/-- Witness for C1 (amended) at an empty archive listing. -/
theorem c1_witness :
    GTFS_REQUIRED_FILES.filter (fun n => n ∉ ([] : List String)) ≠ [] ∧
    (ingest_gtfs true [] "h").result =
      .err (.missingTables (GTFS_REQUIRED_FILES.filter (fun n => n ∉ ([] : List String)))) :=
  ⟨by decide, (c1_amended [] "h" (by decide)).1⟩
/-! ### C4 — over-24-hour time round trip -/

theorem digitChar10_toNat (d : Nat) (hd : d < 10) : (digitChar10 d).toNat = 48 + d := by
  interval_cases d <;> decide

theorem digitChar10_isDigit (d : Nat) (hd : d < 10) : (digitChar10 d).isDigit = true := by
  interval_cases d <;> decide

theorem natDecAux_spec : ∀ fuel n : Nat, n < fuel →
    natDecAux fuel n ≠ [] ∧ (∀ c ∈ natDecAux fuel n, c.isDigit = true) ∧
      (natDecAux fuel n).foldl (fun a c => 10 * a + (c.toNat - 48)) 0 = n := by
  intro fuel
  induction fuel with
  | zero => intro n h; omega
  | succ fuel ih =>
    intro n h
    by_cases h10 : n < 10
    · refine ⟨by simp [natDecAux, h10], ?_, ?_⟩
      · intro c hc
        simp only [natDecAux, h10, if_true, ite_true, List.mem_singleton] at hc
        subst hc
        exact digitChar10_isDigit n h10
      · simp [natDecAux, h10, digitChar10_toNat n h10]
    · obtain ⟨hne, hdig, hval⟩ := ih (n / 10) (by omega)
      have hstep : natDecAux (fuel + 1) n =
          natDecAux fuel (n / 10) ++ [digitChar10 (n % 10)] := by
        simp [natDecAux, h10]
      refine ⟨?_, ?_, ?_⟩
      · rw [hstep]
        simp
      · intro c hc
        rw [hstep, List.mem_append] at hc
        rcases hc with hc | hc
        · exact hdig c hc
        · rw [List.mem_singleton] at hc
          subst hc
          exact digitChar10_isDigit (n % 10) (Nat.mod_lt n (by omega))
      · rw [hstep, List.foldl_append, hval]
        simp only [List.foldl_cons, List.foldl_nil]
        rw [digitChar10_toNat (n % 10) (Nat.mod_lt n (by omega))]
        omega

theorem natDecChars_spec (n : Nat) :
    natDecChars n ≠ [] ∧ (∀ c ∈ natDecChars n, c.isDigit = true) ∧
      (natDecChars n).foldl (fun a c => 10 * a + (c.toNat - 48)) 0 = n :=
  natDecAux_spec (n + 1) n (by omega)

theorem pad2Nat_spec (n : Nat) :
    pad2Nat n ≠ [] ∧ (∀ c ∈ pad2Nat n, c.isDigit = true) ∧
      (pad2Nat n).foldl (fun a c => 10 * a + (c.toNat - 48)) 0 = n := by
  obtain ⟨hne, hdig, hval⟩ := natDecChars_spec n
  unfold pad2Nat
  by_cases h10 : n < 10
  · rw [if_pos h10]
    refine ⟨by simp, ?_, ?_⟩
    · intro c hc
      rw [List.mem_cons] at hc
      rcases hc with rfl | hc
      · decide
      · exact hdig c hc
    · show (natDecChars n).foldl (fun a c => 10 * a + (c.toNat - 48)) (10 * 0 + ('0'.toNat - 48)) = n
      have : (10 * 0 + ('0'.toNat - 48)) = 0 := by decide
      rw [this, hval]
  · rw [if_neg h10]
    exact ⟨hne, hdig, hval⟩

theorem digitsVal?_of_digits (cs : List Char) (hne : cs ≠ [])
    (hdig : ∀ c ∈ cs, c.isDigit = true) :
    digitsVal? cs = some (cs.foldl (fun a c => 10 * a + (c.toNat - 48)) 0) := by
  cases cs with
  | nil => exact absurd rfl hne
  | cons c rest =>
    have hall : (c :: rest).all Char.isDigit = true :=
      List.all_eq_true.mpr (fun x hx => hdig x hx)
    simp [digitsVal?, hall]

theorem pyIntOfChars?_of_digits (cs : List Char) (m : Nat) (hne : cs ≠ [])
    (hdig : ∀ c ∈ cs, c.isDigit = true)
    (hval : cs.foldl (fun a c => 10 * a + (c.toNat - 48)) 0 = m) :
    pyIntOfChars? cs = some (m : Int) := by
  cases cs with
  | nil => exact absurd rfl hne
  | cons c rest =>
    have hcd : c.isDigit = true := hdig c (by simp)
    have hc1 : ¬ c = '-' := fun hceq => absurd (hceq ▸ hcd) (by decide)
    have hc2 : ¬ c = '+' := fun hceq => absurd (hceq ▸ hcd) (by decide)
    have hred : pyIntOfChars? (c :: rest) =
        if c = '-' then (digitsVal? rest).map (fun n => -(n : Int))
        else if c = '+' then (digitsVal? rest).map (fun n => (n : Int))
        else (digitsVal? (c :: rest)).map (fun n => (n : Int)) := rfl
    rw [hred, if_neg hc1, if_neg hc2,
      digitsVal?_of_digits (c :: rest) (by simp) hdig, hval]
    rfl

theorem pyIntOfChars?_pad2Nat (n : Nat) : pyIntOfChars? (pad2Nat n) = some (n : Int) := by
  obtain ⟨hne, hdig, hval⟩ := pad2Nat_spec n
  exact pyIntOfChars?_of_digits _ n hne hdig hval

theorem splitCh_cons (sep c : Char) (cs : List Char) :
    splitCh sep (c :: cs) =
      match splitCh sep cs with
      | [] => [[]]
      | g :: gs => if c = sep then [] :: g :: gs else (c :: g) :: gs := rfl

theorem splitCh_ne_nil (sep : Char) (l : List Char) : splitCh sep l ≠ [] := by
  cases l with
  | nil => simp [splitCh]
  | cons c cs =>
    unfold splitCh
    cases h : splitCh sep cs with
    | nil => simp
    | cons g gs =>
      by_cases hc : c = sep <;> simp [hc]

theorem splitCh_no_sep (sep : Char) (xs : List Char)
    (hxs : ∀ c ∈ xs, ¬ c = sep) : splitCh sep xs = [xs] := by
  induction xs with
  | nil => rfl
  | cons x xs ih =>
    have hrec : splitCh sep xs = [xs] := ih (fun c hc => hxs c (by simp [hc]))
    rw [splitCh_cons, hrec]
    show (if x = sep then [[], xs] else [x :: xs]) = [x :: xs]
    rw [if_neg (hxs x (by simp))]

theorem splitCh_append (sep : Char) (xs ys : List Char)
    (hxs : ∀ c ∈ xs, ¬ c = sep) :
    splitCh sep (xs ++ sep :: ys) = xs :: splitCh sep ys := by
  induction xs with
  | nil =>
    show splitCh sep (sep :: ys) = [] :: splitCh sep ys
    rw [splitCh_cons]
    cases h : splitCh sep ys with
    | nil => exact absurd h (splitCh_ne_nil sep ys)
    | cons g gs =>
      show (if sep = sep then [] :: g :: gs else (sep :: g) :: gs) = [] :: g :: gs
      rw [if_pos rfl]
  | cons x xs ih =>
    have hrec := ih (fun c hc => hxs c (by simp [hc]))
    show splitCh sep (x :: (xs ++ sep :: ys)) = (x :: xs) :: splitCh sep ys
    rw [splitCh_cons, hrec]
    show (if x = sep then [] :: xs :: splitCh sep ys else (x :: xs) :: splitCh sep ys) =
      (x :: xs) :: splitCh sep ys
    rw [if_neg (hxs x (by simp))]

theorem digit_ne_colon (c : Char) (hc : c.isDigit = true) : ¬ c = ':' :=
  fun hceq => absurd (hceq ▸ hc) (by decide)

theorem pad2Int_ofNat (n : Nat) : pad2Int (n : Int) = pad2Nat n := by
  unfold pad2Int pad2Nat intDecChars
  have h0 : ¬ ((n : Int) < 0) := by omega
  rw [if_neg h0]
  by_cases h10 : n < 10
  · rw [if_pos ⟨by omega, by exact_mod_cast h10⟩, if_pos h10]
    simp
  · rw [if_neg ?_, if_neg h10]
    · simp
    · rintro ⟨-, hlt⟩
      exact h10 (by exact_mod_cast hlt)

/-- C4: parsing a well-formed `HH:MM:SS` string with any hour value (in
particular hours ≥ 24) yields `h*3600 + m*60 + s` with no modulo-86400
reduction, and formatting that value back renders the hour without any
modulo-24 reduction, preserving the over-24 hour (e.g. `"25:15:00"` ↦
`90900` ↦ `"25:15"`). -/
theorem c4_time_roundtrip (h m s : Nat) (hh : 24 ≤ h) (hm : m < 60) (hs : s < 60) :
    parse_gtfs_time (gtfsTimeString h m s) =
      some ((h : Int) * 3600 + (m : Int) * 60 + (s : Int)) ∧
    format_seconds_as_time ((h : Int) * 3600 + (m : Int) * 60 + (s : Int)) =
      hourMinuteString h m := by
  obtain ⟨hneH, hdigH, hvalH⟩ := pad2Nat_spec h
  obtain ⟨hneM, hdigM, hvalM⟩ := pad2Nat_spec m
  obtain ⟨hneS, hdigS, hvalS⟩ := pad2Nat_spec s
  constructor
  · have hdata : (gtfsTimeString h m s).data =
        pad2Nat h ++ ':' :: (pad2Nat m ++ ':' :: pad2Nat s) := by
      show pad2Nat h ++ ':' :: pad2Nat m ++ ':' :: pad2Nat s =
        pad2Nat h ++ ':' :: (pad2Nat m ++ ':' :: pad2Nat s)
      simp
    have hsplit : splitCh ':' ((gtfsTimeString h m s).data) =
        [pad2Nat h, pad2Nat m, pad2Nat s] := by
      rw [hdata, splitCh_append ':' _ _ (fun c hc => digit_ne_colon c (hdigH c hc)),
        splitCh_append ':' _ _ (fun c hc => digit_ne_colon c (hdigM c hc)),
        splitCh_no_sep ':' _ (fun c hc => digit_ne_colon c (hdigS c hc))]
    have hempty : ¬ ((gtfsTimeString h m s).data = []) := by
      rw [hdata]
      rcases hp : pad2Nat h with _ | ⟨c, cs⟩
      · exact absurd hp hneH
      · simp
    unfold parse_gtfs_time
    rw [if_neg hempty, hsplit]
    show (do
      let hours ← pyIntOfChars? (pad2Nat h)
      let minutes ← pyIntOfChars? (pad2Nat m)
      let seconds ← pyIntOfChars? (pad2Nat s)
      pure (hours * 3600 + minutes * 60 + seconds) : Option Int) =
        some ((h : Int) * 3600 + (m : Int) * 60 + (s : Int))
    rw [pyIntOfChars?_pad2Nat h, pyIntOfChars?_pad2Nat m, pyIntOfChars?_pad2Nat s]
    rfl
  · have hcast : (h : Int) * 3600 + (m : Int) * 60 + (s : Int) =
        ((h * 3600 + m * 60 + s : Nat) : Int) := by push_cast; ring
    rw [hcast]
    have hdiv : ((h * 3600 + m * 60 + s : Nat) : Int).fdiv 3600 = (h : Int) := by
      rw [show ((3600 : Int) = ((3600 : Nat) : Int)) from rfl, ← Int.ofNat_fdiv]
      have heq : (h * 3600 + m * 60 + s) / 3600 = h := by omega
      rw [heq]
    have hmod : (((h * 3600 + m * 60 + s : Nat) : Int).fmod 3600).fdiv 60 = (m : Int) := by
      rw [show ((3600 : Int) = ((3600 : Nat) : Int)) from rfl, ← Int.ofNat_fmod]
      rw [show ((60 : Int) = ((60 : Nat) : Int)) from rfl, ← Int.ofNat_fdiv]
      have heq : (h * 3600 + m * 60 + s) % 3600 / 60 = m := by omega
      rw [heq]
    show (⟨pad2Int (((h * 3600 + m * 60 + s : Nat) : Int).fdiv 3600) ++
        ':' :: pad2Int ((((h * 3600 + m * 60 + s : Nat) : Int).fmod 3600).fdiv 60)⟩ : String) =
      hourMinuteString h m
    rw [hdiv, hmod, pad2Int_ofNat, pad2Int_ofNat]
    rfl

/-- Witness for C4 at `"25:15:00"`. -/
theorem c4_witness :
    parse_gtfs_time "25:15:00" = some 90900 ∧
    format_seconds_as_time 90900 = "25:15" := by
  have hmain := c4_time_roundtrip 25 15 0 (by decide) (by decide) (by decide)
  have hstr : gtfsTimeString 25 15 0 = "25:15:00" := by decide
  have hnum : ((25 : Nat) : Int) * 3600 + ((15 : Nat) : Int) * 60 + ((0 : Nat) : Int) =
      90900 := by decide
  have hhm : hourMinuteString 25 15 = "25:15" := by decide
  constructor
  · have h1 := hmain.1
    rw [hstr, hnum] at h1
    exact h1
  · have h2 := hmain.2
    rw [hnum, hhm] at h2
    exact h2
/-! ### C5 — interpolated headway percentiles -/

theorem getD_mem_of_lt {l : List Int} {i : Nat} (h : i < l.length) : l.getD i 0 ∈ l := by
  rw [List.getD_eq_getElem?_getD, List.getElem?_eq_getElem h, Option.getD_some]
  exact List.getElem_mem h

theorem percentileInterp_bounds (sv : List Int) (p : ℚ) (hne : sv ≠ [])
    (hp0 : 0 ≤ p) (hp1 : p ≤ 1) (lo hi : ℚ)
    (hlo : ∀ v ∈ sv, lo ≤ (v : ℚ)) (hhi : ∀ v ∈ sv, (v : ℚ) ≤ hi) :
    lo ≤ percentileInterp sv p ∧ percentileInterp sv p ≤ hi := by
  have hlen1 : 1 ≤ sv.length := by
    cases sv with
    | nil => exact absurd rfl hne
    | cons a l => simp
  have hpos0 : 0 ≤ percentilePosition sv p := by
    apply mul_nonneg _ hp0
    have : (1 : ℚ) ≤ (sv.length : ℚ) := by exact_mod_cast hlen1
    linarith
  have hposN : percentilePosition sv p ≤ (sv.length : ℚ) - 1 := by
    have hnn : (0 : ℚ) ≤ (sv.length : ℚ) - 1 := by
      have : (1 : ℚ) ≤ (sv.length : ℚ) := by exact_mod_cast hlen1
      linarith
    calc percentilePosition sv p ≤ ((sv.length : ℚ) - 1) * 1 :=
          mul_le_mul_of_nonneg_left hp1 hnn
      _ = (sv.length : ℚ) - 1 := mul_one _
  have hl0 : 0 ≤ ⌊percentilePosition sv p⌋ := Int.floor_nonneg.mpr hpos0
  have hlN : ⌊percentilePosition sv p⌋ ≤ (sv.length : Int) - 1 := by
    have h := Int.floor_le_floor hposN
    rwa [show ((sv.length : ℚ) - 1) = (((sv.length : Int) - 1 : Int) : ℚ) by push_cast; ring,
      Int.floor_intCast] at h
  have huN : ⌈percentilePosition sv p⌉ ≤ (sv.length : Int) - 1 := by
    apply Int.ceil_le.mpr
    rw [show (((sv.length : Int) - 1 : Int) : ℚ) = ((sv.length : ℚ) - 1) by push_cast; ring]
    exact hposN
  have hu0 : 0 ≤ ⌈percentilePosition sv p⌉ :=
    le_trans hl0 (Int.floor_le_ceil _)
  have hlIdx : (⌊percentilePosition sv p⌋).toNat < sv.length := by omega
  have huIdx : (⌈percentilePosition sv p⌉).toNat < sv.length := by omega
  have hla : lo ≤ ((sv.getD (⌊percentilePosition sv p⌋).toNat 0 : Int) : ℚ) :=
    hlo _ (getD_mem_of_lt hlIdx)
  have hha : ((sv.getD (⌊percentilePosition sv p⌋).toNat 0 : Int) : ℚ) ≤ hi :=
    hhi _ (getD_mem_of_lt hlIdx)
  have hlb : lo ≤ ((sv.getD (⌈percentilePosition sv p⌉).toNat 0 : Int) : ℚ) :=
    hlo _ (getD_mem_of_lt huIdx)
  have hhb : ((sv.getD (⌈percentilePosition sv p⌉).toNat 0 : Int) : ℚ) ≤ hi :=
    hhi _ (getD_mem_of_lt huIdx)
  unfold percentileInterp
  by_cases heq : ⌊percentilePosition sv p⌋ = ⌈percentilePosition sv p⌉
  · rw [if_pos heq]
    exact ⟨hla, hha⟩
  · rw [if_neg heq]
    have hw0 : 0 ≤ percentilePosition sv p - ((⌊percentilePosition sv p⌋ : Int) : ℚ) :=
      sub_nonneg.mpr (Int.floor_le _)
    have hw1 : percentilePosition sv p - ((⌊percentilePosition sv p⌋ : Int) : ℚ) ≤ 1 := by
      have h1 := Int.fract_lt_one (percentilePosition sv p)
      have h2 := Int.self_sub_floor (percentilePosition sv p)
      linarith [h2 ▸ h1]
    constructor
    · nlinarith [hw0, hw1, hla, hlb]
    · nlinarith [hw0, hw1, hha, hhb]

/-- Bounds for `_percentile` on a non-empty sample list with `0 ≤ p ≤ 1`:
the result lies between any lower and any upper bound of the samples (in
particular between their minimum and maximum). -/
theorem percentile_bounds (values : List Int) (p : ℚ) (hne : values ≠ [])
    (hp0 : 0 ≤ p) (hp1 : p ≤ 1) (lo hi : ℚ)
    (hlo : ∀ v ∈ values, lo ≤ (v : ℚ)) (hhi : ∀ v ∈ values, (v : ℚ) ≤ hi) :
    lo ≤ percentile values p ∧ percentile values p ≤ hi := by
  unfold percentile
  rw [if_neg hne]
  by_cases h1 : values.length = 1
  · rw [if_pos h1]
    obtain ⟨v, rfl⟩ : ∃ v, values = [v] := by
      cases values with
      | nil => exact absurd rfl hne
      | cons a l =>
        cases l with
        | nil => exact ⟨a, rfl⟩
        | cons b l' => simp at h1
    exact ⟨hlo v (by simp), hhi v (by simp)⟩
  · rw [if_neg h1]
    apply percentileInterp_bounds _ p _ hp0 hp1 lo hi
    · intro v hv
      exact hlo v ((List.mem_insertionSort _).mp hv)
    · intro v hv
      exact hhi v ((List.mem_insertionSort _).mp hv)
    · intro hsortnil
      have := List.length_insertionSort (r := fun a b : Int => a ≤ b) values
      rw [hsortnil] at this
      simp at this
      exact hne (List.length_eq_zero.mp this.symm)

theorem mem_foldl_append {α β : Type} (f : β → List α) (l : List β)
    (init : List α) (r : α) :
    (r ∈ l.foldl (fun acc b => acc ++ f b) init) ↔ r ∈ init ∨ ∃ b ∈ l, r ∈ f b := by
  induction l generalizing init with
  | nil => simp
  | cons b bs ih =>
    rw [List.foldl_cons, ih]
    rw [List.mem_append]
    constructor
    · rintro (⟨h | h⟩ | ⟨b', hb', hr⟩)
      · exact Or.inl h
      · exact Or.inr ⟨b, by simp, h⟩
      · exact Or.inr ⟨b', by simp [hb'], hr⟩
    · rintro (h | ⟨b', hb', hr⟩)
      · exact Or.inl (Or.inl h)
      · rw [List.mem_cons] at hb'
        rcases hb' with rfl | hb'
        · exact Or.inl (Or.inr hr)
        · exact Or.inr ⟨b', hb', hr⟩

theorem insertGroup_values_ne_nil {κ ν : Type} [DecidableEq κ] (k : κ) (v : ν)
    (l : List (κ × List ν)) (hl : ∀ g ∈ l, g.2 ≠ []) :
    ∀ g ∈ insertGroup k v l, g.2 ≠ [] := by
  induction l with
  | nil =>
    intro g hg
    rw [show insertGroup k v [] = [(k, [v])] from rfl, List.mem_singleton] at hg
    subst hg
    simp
  | cons kv rest ih =>
    obtain ⟨k', vs⟩ := kv
    intro g hg
    rw [show insertGroup k v ((k', vs) :: rest) =
        (if k = k' then (k', vs ++ [v]) :: rest
         else (k', vs) :: insertGroup k v rest) from rfl] at hg
    by_cases hk : k = k'
    · rw [if_pos hk, List.mem_cons] at hg
      rcases hg with rfl | hg
      · simp
      · exact hl g (by simp [hg])
    · rw [if_neg hk, List.mem_cons] at hg
      rcases hg with rfl | hg
      · exact hl _ (by simp)
      · exact ih (fun g' hg' => hl g' (by simp [hg'])) g hg

theorem groupByKey_values_ne_nil {κ ν : Type} [DecidableEq κ]
    (pairs : List (κ × ν)) : ∀ g ∈ groupByKey pairs, g.2 ≠ [] := by
  suffices h : ∀ acc : List (κ × List ν), (∀ g ∈ acc, g.2 ≠ []) →
      ∀ g ∈ pairs.foldl (fun acc kv => insertGroup kv.1 kv.2 acc) acc, g.2 ≠ [] by
    exact h [] (by simp)
  induction pairs with
  | nil => intro acc hacc; simpa using hacc
  | cons kv rest ih =>
    intro acc hacc
    rw [List.foldl_cons]
    exact ih _ (insertGroup_values_ne_nil kv.1 kv.2 acc hacc)

theorem mkHeadwayRec_departures (feedId dayId : String) (key : String × Option Int × Int)
    (values : List Int) :
    (mkHeadwayRec feedId dayId key values).departures = values.length := by
  simp [mkHeadwayRec, List.length_insertionSort]

theorem mkHeadwayRec_nulls (feedId dayId : String) (key : String × Option Int × Int)
    (values : List Int) (hle : values.length ≤ 1) :
    (mkHeadwayRec feedId dayId key values).headway_p50_min = none ∧
      (mkHeadwayRec feedId dayId key values).headway_p90_min = none := by
  have hgt : ¬ (1 < values.length) := by omega
  simp [mkHeadwayRec, List.length_insertionSort, hgt]

theorem sortedDiffs_ne_nil (values : List Int) (h2 : 2 ≤ values.length) :
    sortedDiffs values ≠ [] := by
  have hlen : (List.insertionSort (fun a b => a ≤ b) values).length = values.length :=
    List.length_insertionSort _ _
  unfold sortedDiffs succDiffs
  intro hnil
  have := congrArg List.length hnil
  rw [List.length_zipWith, List.length_tail] at this
  simp at this
  omega

theorem mkHeadwayRec_percentiles (feedId dayId : String)
    (key : String × Option Int × Int) (values : List Int) (h2 : 2 ≤ values.length) :
    (mkHeadwayRec feedId dayId key values).headway_p50_min =
        some (percentile (sortedDiffs values) (1/2) / 60) ∧
      (mkHeadwayRec feedId dayId key values).headway_p90_min =
        some (percentile (sortedDiffs values) (9/10) / 60) := by
  have hgt : 1 < values.length := by omega
  have hdne := sortedDiffs_ne_nil values h2
  unfold sortedDiffs at hdne
  simp [mkHeadwayRec, List.length_insertionSort, hgt, hdne, sortedDiffs]

/-- C5: every bucket record of `compute_headways` has null percentiles and
`departures = n` when its bucket holds `n ≤ 1` departures; with `n ≥ 2`
departures its p50/p90 are the linear-interpolation percentiles of the
`n−1` successive differences of the ascending-sorted departure times
(divided by 60), and each computed percentile lies between any lower and
upper bound of those differences — in particular between their minimum and
maximum. -/
theorem c5_bucket_percentiles (feedId : String) (trips : List TripRow)
    (stop_times : List StopTimeRow) (calendar : List DayTypeRec)
    (timebin_minutes : Int) (out : List HeadwayRec)
    (hout : compute_headways feedId trips stop_times calendar timebin_minutes = some out)
    (r : HeadwayRec) (hr : r ∈ out) :
    (r.departures ≤ 1 → r.headway_p50_min = none ∧ r.headway_p90_min = none) ∧
    (2 ≤ r.departures → ∃ values : List Int,
      r.departures = values.length ∧ 2 ≤ values.length ∧
      r.headway_p50_min = some (percentile (sortedDiffs values) (1/2) / 60) ∧
      r.headway_p90_min = some (percentile (sortedDiffs values) (9/10) / 60) ∧
      sortedDiffs values ≠ [] ∧
      ∀ lo hi : ℚ, (∀ d ∈ sortedDiffs values, lo ≤ (d : ℚ)) →
        (∀ d ∈ sortedDiffs values, (d : ℚ) ≤ hi) →
        (lo ≤ percentile (sortedDiffs values) (1/2) ∧
          percentile (sortedDiffs values) (1/2) ≤ hi ∧
          lo ≤ percentile (sortedDiffs values) (9/10) ∧
          percentile (sortedDiffs values) (9/10) ≤ hi)) := by
  cases hdep : compute_trip_departures stop_times with
  | none => simp [compute_headways, hdep] at hout
  | some deps =>
    simp only [compute_headways, hdep, Option.bind_eq_bind, Option.some_bind,
      Option.pure_def, Option.some_inj] at hout
    subst hout
    have hr' := (List.mem_insertionSort _).mp hr
    have hmem := (mem_foldl_append
      (f := fun day : DayTypeRec => if day.service_ids = [] then ([] : List HeadwayRec)
        else (groupByKey (headwayPairs trips deps day.service_ids timebin_minutes)).map
          (fun g => mkHeadwayRec feedId day.day_type_id g.1 g.2))
      calendar [] r).mp hr'
    rcases hmem with h | ⟨day, hday, hrin⟩
    · simp at h
    · by_cases hsv : day.service_ids = []
      · rw [if_pos hsv] at hrin
        simp at hrin
      · rw [if_neg hsv] at hrin
        obtain ⟨g, hg, rfl⟩ := List.mem_map.mp hrin
        rw [mkHeadwayRec_departures]
        constructor
        · intro hle
          exact mkHeadwayRec_nulls _ _ _ _ hle
        · intro h2
          refine ⟨g.2, rfl, h2, (mkHeadwayRec_percentiles _ _ _ _ h2).1,
            (mkHeadwayRec_percentiles _ _ _ _ h2).2, sortedDiffs_ne_nil _ h2, ?_⟩
          intro lo hi hlo hhi
          have hb1 := percentile_bounds (sortedDiffs g.2) (1/2)
            (sortedDiffs_ne_nil _ h2) (by norm_num) (by norm_num) lo hi hlo hhi
          have hb2 := percentile_bounds (sortedDiffs g.2) (9/10)
            (sortedDiffs_ne_nil _ h2) (by norm_num) (by norm_num) lo hi hlo hhi
          exact ⟨hb1.1, hb1.2, hb2.1, hb2.2⟩

/-- Witness for C5 at a feed whose single bucket holds one departure:
percentiles are null and the departure count is the bucket size. -/
theorem c5_witness :
    ({ feed_id := "f", day_type_id := "ALL", route_id := "R", direction_id := none,
       timebin_start := 21600, timebin_label := "06:00", departures := 1,
       headway_p50_min := none, headway_p90_min := none } : HeadwayRec).headway_p50_min = none ∧
    ({ feed_id := "f", day_type_id := "ALL", route_id := "R", direction_id := none,
       timebin_start := 21600, timebin_label := "06:00", departures := 1,
       headway_p50_min := none, headway_p90_min := none } : HeadwayRec).headway_p90_min = none :=
  (c5_bucket_percentiles "f" [⟨"t1", some "R", some "s", none⟩]
    [⟨"t1", "S1", some "1", "06:00:00"⟩] [⟨"ALL", "Jour-type", ["s"]⟩] 15
    [{ feed_id := "f", day_type_id := "ALL", route_id := "R", direction_id := none,
       timebin_start := 21600, timebin_label := "06:00", departures := 1,
       headway_p50_min := none, headway_p90_min := none }] (by decide)
    { feed_id := "f", day_type_id := "ALL", route_id := "R", direction_id := none,
      timebin_start := 21600, timebin_label := "06:00", departures := 1,
      headway_p50_min := none, headway_p90_min := none } (by decide)).1 (by decide)
